import Mathlib

/-!
Shallow embedding of the activity-participation core of the orphanage
management server (`src/server/src/handlers/activities.ts`,
`src/server/src/handlers/activity_participations.ts`, schema in
`src/server/src/db/schema.ts`).

The Entity Store is modelled as an explicit state (`DB`): lists of Activity
and ActivityParticipation rows plus the serial-id counters and a clock.
Staff and Child rows are read-only existence facts consumed by the core, so
they live in a fixed environment (`Env`) of ids.  Each handler is a pure
function from state to result and next state; a thrown `Error` is an
`Except.error`.  JavaScript `x || null` coercion on optional fields is made
explicit (`jsOrInt`, `jsOrStr`): `0`, `""`, `null` and `undefined` all map
to `null`.  Row order inside a table is not observable through the API
(reads promise no order), so inserts prepend.
-/

inductive ActivityStatus where
  | PLANNED | ONGOING | COMPLETED | CANCELLED
deriving DecidableEq, Repr

inductive ParticipationStatus where
  | REGISTERED | ATTENDED | ABSENT | CANCELLED
deriving DecidableEq, Repr

/-- A row of `activitiesTable`. -/
structure Activity where
  id : Nat
  title : String
  description : Option String
  activity_date : Int
  location : Option String
  status : ActivityStatus
  max_participants : Option Int
  created_by : Nat
  created_at : Nat
  updated_at : Nat
deriving DecidableEq, Repr

/-- A row of `activityParticipationsTable`. -/
structure Participation where
  id : Nat
  activity_id : Nat
  child_id : Nat
  status : ParticipationStatus
  notes : Option String
  registered_at : Nat
  updated_at : Nat
deriving DecidableEq, Repr

/-- Read-only existence facts: ids of staff and children rows. -/
structure Env where
  staff : List Nat
  children : List Nat
deriving DecidableEq, Repr

/-- The mutable Entity Store: both tables, their serial counters, a clock. -/
structure DB where
  activities : List Activity
  participations : List Participation
  nextActivityId : Nat
  nextParticipationId : Nat
  now : Nat
deriving DecidableEq, Repr

def emptyDB : DB :=
  { activities := [], participations := [],
    nextActivityId := 1, nextParticipationId := 1, now := 0 }

/-- The error kinds thrown by the handlers. -/
inductive AppError where
  | activityNotFound
  | childNotFound
  | duplicateEnrollment
  | capacityExceeded
  | staffNotFound
deriving DecidableEq, Repr

/-- JS `v || null` on a `number | null | undefined` field: `undefined`,
`null` and `0` are falsy and coerce to `null`. -/
def jsOrInt : Option (Option Int) → Option Int
  | some (some v) => if v = 0 then none else some v
  | some none => none
  | none => none

/-- JS `v || null` on a `string | null | undefined` field: `undefined`,
`null` and `""` are falsy and coerce to `null`. -/
def jsOrStr : Option (Option String) → Option String
  | some (some v) => if v = "" then none else some v
  | some none => none
  | none => none

/-- Parsed `createActivityInputSchema` value. -/
structure CreateActivityInput where
  title : String
  description : Option (Option String)
  activity_date : Int
  location : Option (Option String)
  max_participants : Option (Option Int)
  created_by : Nat
deriving DecidableEq, Repr

/-- `Partial<CreateActivityInput>`: outer `Option` is field presence
(`undefined` when `none`), inner layer is the field's own value. -/
structure UpdateActivityInput where
  title : Option String
  description : Option (Option String)
  activity_date : Option Int
  location : Option (Option String)
  max_participants : Option (Option Int)
  created_by : Option Nat
deriving DecidableEq, Repr

/-- Parsed `createActivityParticipationInputSchema` value. -/
structure CreateParticipationInput where
  activity_id : Nat
  child_id : Nat
  status : ParticipationStatus
  notes : Option (Option String)
deriving DecidableEq, Repr

/-- `createActivity` (handlers/activities.ts): verify staff exists, insert
with status forced to PLANNED and `max_participants: input.max_participants || null`. -/
def createActivity (env : Env) (s : DB) (input : CreateActivityInput) :
    Except AppError (Activity × DB) :=
  if env.staff.contains input.created_by then
    let row : Activity :=
      { id := s.nextActivityId
        title := input.title
        description := jsOrStr input.description
        activity_date := input.activity_date
        location := jsOrStr input.location
        status := .PLANNED
        max_participants := jsOrInt input.max_participants
        created_by := input.created_by
        created_at := s.now
        updated_at := s.now }
    .ok (row, { s with activities := row :: s.activities,
                       nextActivityId := s.nextActivityId + 1 })
  else
    .error .staffNotFound

/-- `getActivityById`: `results[0] || null` over a select by id. -/
def getActivityById (s : DB) (id : Nat) : Option Activity :=
  s.activities.find? (fun a => a.id == id)

/-- `getAllActivities`. -/
def getAllActivities (s : DB) : List Activity :=
  s.activities

/-- The `updateValues` object of `updateActivity` applied to one row:
`updated_at` always refreshed, each field overwritten only when present
(`!== undefined`) in the partial input, with `|| null` on the nullable
ones.  `status` is never written. -/
def applyActivityUpdate (now : Nat) (input : UpdateActivityInput)
    (a : Activity) : Activity :=
  { a with
    updated_at := now
    title := match input.title with | some t => t | none => a.title
    description := match input.description with
      | some d => jsOrStr (some d) | none => a.description
    activity_date := match input.activity_date with
      | some d => d | none => a.activity_date
    location := match input.location with
      | some l => jsOrStr (some l) | none => a.location
    max_participants := match input.max_participants with
      | some m => jsOrInt (some m) | none => a.max_participants
    created_by := match input.created_by with
      | some c => c | none => a.created_by }

/-- The staff revalidation of `updateActivity`: only performed when the
partial input carries `created_by`. -/
def staffRefOk (env : Env) (input : UpdateActivityInput) : Bool :=
  match input.created_by with
  | some cb => env.staff.contains cb
  | none => true

/-- `updateActivity` (handlers/activities.ts): null when the id is absent;
staff revalidated when `created_by` is present; then an update-where-id
returning the updated row. -/
def updateActivity (env : Env) (s : DB) (id : Nat)
    (input : UpdateActivityInput) :
    Except AppError (Option (Activity × DB)) :=
  match getActivityById s id with
  | none => .ok none
  | some a =>
    if staffRefOk env input then
      let rows := s.activities.map (fun b =>
        if b.id == id then applyActivityUpdate s.now input b else b)
      .ok (some (applyActivityUpdate s.now input a, { s with activities := rows }))
    else
      .error .staffNotFound

/-- `updateActivityStatus`: null when absent, otherwise set status
unconditionally and refresh `updated_at`. -/
def updateActivityStatus (s : DB) (id : Nat) (st : ActivityStatus) :
    Option (Activity × DB) :=
  match getActivityById s id with
  | none => none
  | some a =>
    let rows := s.activities.map (fun b =>
      if b.id == id then { b with status := st, updated_at := s.now } else b)
    some ({ a with status := st, updated_at := s.now },
          { s with activities := rows })

/-- Length of the select used by the capacity check: participation rows
whose `activity_id` matches. -/
def countList (l : List Participation) (aid : Nat) : Nat :=
  (l.filter (fun p => p.activity_id == aid)).length

/-- Number of participation rows for one activity, as counted by the
capacity check. -/
def countFor (s : DB) (aid : Nat) : Nat :=
  countList s.participations aid

/-- The select behind the duplicate check: first row for the
(activity_id, child_id) pair, any status. -/
def findPair (s : DB) (aid cid : Nat) : Option Participation :=
  s.participations.find? (fun p => p.activity_id == aid && p.child_id == cid)

/-- The capacity guard: the handler throws exactly when `max_participants`
is non-null and the current count is already `≥` it. -/
def capacityFull (s : DB) (aid : Nat) (maxP : Option Int) : Bool :=
  match maxP with
  | some m => ((countFor s aid : Int) ≥ m)
  | none => false

/-- `createActivityParticipation` (handlers/activity_participations.ts), in
the source's check order: activity exists, child exists, no row for the
(activity_id, child_id) pair, count < max_participants when it is non-null,
then insert.  `registered_at` and `updated_at` both default to the insert
time. -/
def createActivityParticipation (env : Env) (s : DB)
    (input : CreateParticipationInput) :
    Except AppError (Participation × DB) :=
  match s.activities.find? (fun a => a.id == input.activity_id) with
  | none => .error .activityNotFound
  | some activity =>
    if env.children.contains input.child_id then
      if (findPair s input.activity_id input.child_id).isSome then
        .error .duplicateEnrollment
      else
        if capacityFull s input.activity_id activity.max_participants then
          .error .capacityExceeded
        else
          let row : Participation :=
            { id := s.nextParticipationId
              activity_id := input.activity_id
              child_id := input.child_id
              status := input.status
              notes := jsOrStr input.notes
              registered_at := s.now
              updated_at := s.now }
          .ok (row, { s with participations := row :: s.participations,
                             nextParticipationId := s.nextParticipationId + 1 })
    else
      .error .childNotFound

/-- `getParticipationsByActivityId`. -/
def getParticipationsByActivityId (s : DB) (activityId : Nat) :
    List Participation :=
  s.participations.filter (fun p => p.activity_id == activityId)

/-- `getParticipationsByChildId`. -/
def getParticipationsByChildId (s : DB) (childId : Nat) :
    List Participation :=
  s.participations.filter (fun p => p.child_id == childId)

/-- `updateParticipationStatus`: update-where-id returning; null when no
row matched, otherwise status set unconditionally, `updated_at` refreshed. -/
def updateParticipationStatus (s : DB) (id : Nat)
    (st : ParticipationStatus) : Option (Participation × DB) :=
  match s.participations.find? (fun p => p.id == id) with
  | none => none
  | some p =>
    let rows := s.participations.map (fun q =>
      if q.id == id then { q with status := st, updated_at := s.now } else q)
    some ({ p with status := st, updated_at := s.now },
          { s with participations := rows })

/-- `removeActivityParticipation`: delete-where-id returning; the success
flag is whether any row was deleted. -/
def removeActivityParticipation (s : DB) (id : Nat) : Bool × DB :=
  (s.participations.any (fun p => p.id == id),
   { s with participations := s.participations.filter (fun p => !(p.id == id)) })

/-- One core operation, as named in the external interface table of the
spec. -/
inductive Op where
  | createActivity (input : CreateActivityInput)
  | updateActivity (id : Nat) (input : UpdateActivityInput)
  | updateActivityStatus (id : Nat) (st : ActivityStatus)
  | enrollParticipant (input : CreateParticipationInput)
  | updateParticipationStatus (id : Nat) (st : ParticipationStatus)
  | removeParticipation (id : Nat)
deriving DecidableEq, Repr

/-- Execute one operation against the store; a thrown error or a null
result leaves the store unchanged. -/
def step (env : Env) (s : DB) : Op → DB
  | .createActivity input =>
    match createActivity env s input with
    | .ok (_, s') => s'
    | .error _ => s
  | .updateActivity id input =>
    match updateActivity env s id input with
    | .ok (some (_, s')) => s'
    | .ok none => s
    | .error _ => s
  | .updateActivityStatus id st =>
    match updateActivityStatus s id st with
    | some (_, s') => s'
    | none => s
  | .enrollParticipant input =>
    match createActivityParticipation env s input with
    | .ok (_, s') => s'
    | .error _ => s
  | .updateParticipationStatus id st =>
    match updateParticipationStatus s id st with
    | some (_, s') => s'
    | none => s
  | .removeParticipation id => (removeActivityParticipation s id).2

/-- Run a sequence of core operations. -/
def run (env : Env) (s : DB) (ops : List Op) : DB :=
  ops.foldl (step env) s

/-- The capacity invariant of the spec: no activity with a non-null
`max_participants` has more participation rows than that bound. -/
def capacityOk (s : DB) : Bool :=
  s.activities.all (fun a =>
    match a.max_participants with
    | some m => ((countFor s a.id : Int) ≤ m)
    | none => true)

/-- True unless the operation is an `updateActivity` whose partial input
supplies the `max_participants` field. -/
def opPreservesMax : Op → Bool
  | .updateActivity _ input => input.max_participants.isNone
  | _ => true

/-- `createActivityInputSchema` declares
`max_participants: z.number().positive().nullable().optional()`: when a
numeric value is present it is positive. -/
def zodPosMax (input : CreateActivityInput) : Bool :=
  match input.max_participants with
  | some (some v) => (0 < v)
  | _ => true

/-- The zod gate in front of the handlers: a create input that reaches the
handler satisfies its schema.  Other operations are unconstrained here. -/
def opValid : Op → Bool
  | .createActivity input => zodPosMax input
  | _ => true

/-! ### Interleaved executions of the enrollment handler

`createActivityParticipation` performs each of its database accesses as a
separate awaited call — select activity, select child, select the
(activity_id, child_id) pair, count, insert — with no enclosing
transaction, and `activityParticipationsTable` declares no uniqueness
constraint on the pair.  The phase machine below is the same handler cut
at its await points; a schedule interleaves two in-flight calls. -/

inductive EnrollPhase where
  | start
  | childCheck (activity : Activity)
  | dupCheck (activity : Activity)
  | capacityCheck (activity : Activity)
  | insertRow (activity : Activity)
  | done (result : Except AppError Participation)
deriving Repr

/-- One in-flight `createActivityParticipation` call. -/
structure EnrollThread where
  input : CreateParticipationInput
  phase : EnrollPhase
deriving Repr

/-- One database round-trip of an in-flight enrollment call. -/
def enrollStep (env : Env) (s : DB) (t : EnrollThread) : DB × EnrollThread :=
  match t.phase with
  | .start =>
    match s.activities.find? (fun a => a.id == t.input.activity_id) with
    | none => (s, { t with phase := .done (.error .activityNotFound) })
    | some a => (s, { t with phase := .childCheck a })
  | .childCheck a =>
    if env.children.contains t.input.child_id then
      (s, { t with phase := .dupCheck a })
    else
      (s, { t with phase := .done (.error .childNotFound) })
  | .dupCheck a =>
    if (findPair s t.input.activity_id t.input.child_id).isSome then
      (s, { t with phase := .done (.error .duplicateEnrollment) })
    else
      (s, { t with phase := .capacityCheck a })
  | .capacityCheck a =>
    if capacityFull s t.input.activity_id a.max_participants then
      (s, { t with phase := .done (.error .capacityExceeded) })
    else
      (s, { t with phase := .insertRow a })
  | .insertRow _ =>
    let row : Participation :=
      { id := s.nextParticipationId
        activity_id := t.input.activity_id
        child_id := t.input.child_id
        status := t.input.status
        notes := jsOrStr t.input.notes
        registered_at := s.now
        updated_at := s.now }
    ({ s with participations := row :: s.participations,
              nextParticipationId := s.nextParticipationId + 1 },
     { t with phase := .done (.ok row) })
  | .done r => (s, { t with phase := .done r })

/-- Interleave two in-flight enrollment calls under a schedule: `true`
steps the first thread, `false` the second. -/
def runSchedule (env : Env) :
    DB → EnrollThread → EnrollThread → List Bool → DB × EnrollThread × EnrollThread
  | s, t1, t2, [] => (s, t1, t2)
  | s, t1, t2, true :: rest =>
    let r := enrollStep env s t1
    runSchedule env r.1 r.2 t2 rest
  | s, t1, t2, false :: rest =>
    let r := enrollStep env s t2
    runSchedule env r.1 t1 r.2 rest

/-- Did this in-flight call finish successfully? -/
def isOkThread (t : EnrollThread) : Bool :=
  match t.phase with
  | .done (.ok _) => true
  | _ => false

/-! ### Concrete stores and inputs used in the examples below -/

def demoEnv : Env := { staff := [1], children := [1, 2] }

def mkActivityInput (m : Option (Option Int)) : CreateActivityInput :=
  { title := "Beach trip", description := none, activity_date := 0,
    location := none, max_participants := m, created_by := 1 }

def mkEnrollInput (aid cid : Nat) (st : ParticipationStatus) :
    CreateParticipationInput :=
  { activity_id := aid, child_id := cid, status := st, notes := none }

def noFieldsUpdate : UpdateActivityInput :=
  { title := none, description := none, activity_date := none,
    location := none, max_participants := none, created_by := none }

def oneSlotActivity : Activity :=
  { id := 1, title := "Beach trip", description := none, activity_date := 0,
    location := none, status := .PLANNED, max_participants := some 1,
    created_by := 1, created_at := 0, updated_at := 0 }

def openActivity : Activity := { oneSlotActivity with max_participants := none }

def zeroCapActivity : Activity :=
  { oneSlotActivity with max_participants := some 0 }

def oneSlotDB : DB :=
  { activities := [oneSlotActivity], participations := [],
    nextActivityId := 2, nextParticipationId := 1, now := 5 }

def zeroCapDB : DB :=
  { activities := [zeroCapActivity], participations := [],
    nextActivityId := 2, nextParticipationId := 1, now := 0 }

def oneActDB : DB :=
  { activities := [openActivity], participations := [],
    nextActivityId := 2, nextParticipationId := 1, now := 3 }

def enrolledRow : Participation :=
  { id := 1, activity_id := 1, child_id := 1, status := .ATTENDED,
    notes := none, registered_at := 5, updated_at := 5 }

def oneSlotDBAfter : DB :=
  { oneSlotDB with participations := [enrolledRow], nextParticipationId := 2 }

def partRowA : Participation :=
  { id := 1, activity_id := 1, child_id := 1, status := .REGISTERED,
    notes := none, registered_at := 0, updated_at := 0 }

def partRowB : Participation :=
  { id := 2, activity_id := 1, child_id := 2, status := .REGISTERED,
    notes := none, registered_at := 0, updated_at := 0 }

def twoRowsDB : DB :=
  { activities := [openActivity], participations := [partRowA, partRowB],
    nextActivityId := 2, nextParticipationId := 3, now := 9 }

def titleOnlyUpdate : UpdateActivityInput :=
  { noFieldsUpdate with title := some "Renamed" }

def zeroCreated : Activity :=
  { id := 1, title := "Beach trip", description := none, activity_date := 0,
    location := none, status := .PLANNED, max_participants := none,
    created_by := 1, created_at := 0, updated_at := 0 }

def zeroOutDB : DB :=
  { emptyDB with activities := [zeroCreated], nextActivityId := 2 }

def capOps : List Op :=
  [.createActivity (mkActivityInput none),
   .enrollParticipant (mkEnrollInput 1 1 .REGISTERED),
   .enrollParticipant (mkEnrollInput 1 2 .REGISTERED),
   .updateActivity 1 { noFieldsUpdate with max_participants := some (some 1) }]

def goodOps : List Op :=
  [.createActivity (mkActivityInput (some (some 1))),
   .enrollParticipant (mkEnrollInput 1 1 .REGISTERED),
   .enrollParticipant (mkEnrollInput 1 2 .REGISTERED),
   .removeParticipation 1,
   .updateActivityStatus 1 .COMPLETED]

def dupOps : List Op :=
  [.createActivity (mkActivityInput none),
   .enrollParticipant (mkEnrollInput 1 1 .REGISTERED)]

def raceThreadA : EnrollThread :=
  { input := mkEnrollInput 1 1 .REGISTERED, phase := .start }

def raceThreadB : EnrollThread :=
  { input := mkEnrollInput 1 2 .REGISTERED, phase := .start }

/-- Both calls run their activity, child, duplicate and capacity reads
before either performs its insert. -/
def raceSchedule : List Bool :=
  [true, true, true, true, false, false, false, false, true, false]

/-! ### Basic lemmas about the embedded operations -/


theorem jsOrInt_ne_some_zero (x : Option (Option Int)) : jsOrInt x ≠ some 0 := by
  unfold jsOrInt
  match x with
  | none => simp
  | some none => simp
  | some (some v) => by_cases h : v = 0 <;> simp [h]

theorem applyActivityUpdate_id (now : Nat) (input : UpdateActivityInput)
    (a : Activity) : (applyActivityUpdate now input a).id = a.id := rfl

theorem applyActivityUpdate_status (now : Nat) (input : UpdateActivityInput)
    (a : Activity) : (applyActivityUpdate now input a).status = a.status := rfl

theorem applyActivityUpdate_created_at (now : Nat) (input : UpdateActivityInput)
    (a : Activity) : (applyActivityUpdate now input a).created_at = a.created_at := rfl

theorem applyActivityUpdate_updated_at (now : Nat) (input : UpdateActivityInput)
    (a : Activity) : (applyActivityUpdate now input a).updated_at = now := rfl

theorem applyActivityUpdate_max (now : Nat) (input : UpdateActivityInput)
    (a : Activity) :
    (applyActivityUpdate now input a).max_participants =
      match input.max_participants with
      | some m => jsOrInt (some m)
      | none => a.max_participants := rfl

theorem applyActivityUpdate_max_ne_zero (now : Nat) (input : UpdateActivityInput)
    (a : Activity) (h : a.max_participants ≠ some 0) :
    (applyActivityUpdate now input a).max_participants ≠ some 0 := by
  rw [applyActivityUpdate_max]
  cases hm : input.max_participants with
  | some m => exact jsOrInt_ne_some_zero (some m)
  | none => exact h

theorem applyActivityUpdate_max_of_none (now : Nat) (input : UpdateActivityInput)
    (a : Activity) (h : input.max_participants = none) :
    (applyActivityUpdate now input a).max_participants = a.max_participants := by
  rw [applyActivityUpdate_max, h]

theorem createActivity_ok_elim (env : Env) (s : DB)
    (input : CreateActivityInput) (a : Activity) (s' : DB)
    (h : createActivity env s input = .ok (a, s')) :
    env.staff.contains input.created_by = true ∧
    a = { id := s.nextActivityId, title := input.title,
          description := jsOrStr input.description,
          activity_date := input.activity_date,
          location := jsOrStr input.location, status := .PLANNED,
          max_participants := jsOrInt input.max_participants,
          created_by := input.created_by, created_at := s.now,
          updated_at := s.now } ∧
    s' = { s with activities := a :: s.activities,
                  nextActivityId := s.nextActivityId + 1 } := by
  unfold createActivity at h
  split at h
  next hst =>
    simp only [Except.ok.injEq, Prod.mk.injEq] at h
    obtain ⟨ha, hs⟩ := h
    refine ⟨hst, ha.symm, ?_⟩
    rw [← ha]
    exact hs.symm
  next => exact absurd h (by simp)

theorem enroll_ok_elim (env : Env) (s : DB) (input : CreateParticipationInput)
    (row : Participation) (s' : DB)
    (h : createActivityParticipation env s input = .ok (row, s')) :
    (∃ a, s.activities.find? (fun x => x.id == input.activity_id) = some a ∧
      capacityFull s input.activity_id a.max_participants = false) ∧
    env.children.contains input.child_id = true ∧
    findPair s input.activity_id input.child_id = none ∧
    row = { id := s.nextParticipationId
            activity_id := input.activity_id
            child_id := input.child_id
            status := input.status
            notes := jsOrStr input.notes
            registered_at := s.now
            updated_at := s.now } ∧
    s' = { s with participations := row :: s.participations,
                  nextParticipationId := s.nextParticipationId + 1 } := by
  unfold createActivityParticipation at h
  split at h
  next => exact absurd h (by simp)
  next a ha =>
    split at h
    next hchild =>
      split at h
      next => exact absurd h (by simp)
      next hdup =>
        split at h
        next => exact absurd h (by simp)
        next hcap =>
          simp only [Except.ok.injEq, Prod.mk.injEq] at h
          obtain ⟨hrow, hs⟩ := h
          refine ⟨⟨a, ha, by simpa using hcap⟩, hchild, ?_, hrow.symm, ?_⟩
          · cases hfp : findPair s input.activity_id input.child_id with
            | none => rfl
            | some q => rw [hfp] at hdup; simp at hdup
          · rw [← hrow]
            exact hs.symm
    next => exact absurd h (by simp)

theorem updateActivity_ok_elim (env : Env) (s : DB) (id : Nat)
    (input : UpdateActivityInput) (a' : Activity) (s' : DB)
    (h : updateActivity env s id input = .ok (some (a', s'))) :
    ∃ a, getActivityById s id = some a ∧
      a' = applyActivityUpdate s.now input a ∧
      s' = { s with activities := s.activities.map (fun b =>
        if b.id == id then applyActivityUpdate s.now input b else b) } := by
  unfold updateActivity at h
  split at h
  next => simp at h
  next a ha =>
    split at h
    next =>
      simp only [Except.ok.injEq, Option.some.injEq, Prod.mk.injEq] at h
      exact ⟨a, ha, h.1.symm, h.2.symm⟩
    next => simp at h

theorem updateActivityStatus_some_elim (s : DB) (id : Nat)
    (st : ActivityStatus) (a' : Activity) (s' : DB)
    (h : updateActivityStatus s id st = some (a', s')) :
    ∃ a, getActivityById s id = some a ∧
      a' = { a with status := st, updated_at := s.now } ∧
      s' = { s with activities := s.activities.map (fun b =>
        if b.id == id then { b with status := st, updated_at := s.now } else b) } := by
  unfold updateActivityStatus at h
  split at h
  next => simp at h
  next a ha =>
    simp only [Option.some.injEq, Prod.mk.injEq] at h
    exact ⟨a, ha, h.1.symm, h.2.symm⟩

theorem updateParticipationStatus_some_elim (s : DB) (id : Nat)
    (st : ParticipationStatus) (p' : Participation) (s' : DB)
    (h : updateParticipationStatus s id st = some (p', s')) :
    ∃ p, s.participations.find? (fun q => q.id == id) = some p ∧
      p' = { p with status := st, updated_at := s.now } ∧
      s' = { s with participations := s.participations.map (fun q =>
        if q.id == id then { q with status := st, updated_at := s.now } else q) } := by
  unfold updateParticipationStatus at h
  split at h
  next => simp at h
  next p hp =>
    simp only [Option.some.injEq, Prod.mk.injEq] at h
    exact ⟨p, hp, h.1.symm, h.2.symm⟩

theorem countList_cons (p : Participation) (l : List Participation) (aid : Nat) :
    countList (p :: l) aid =
      if p.activity_id = aid then countList l aid + 1 else countList l aid := by
  by_cases h : p.activity_id = aid <;>
    simp [countList, List.filter_cons, h]

theorem countList_map_preserve (f : Participation → Participation)
    (l : List Participation) (hf : ∀ p, (f p).activity_id = p.activity_id)
    (aid : Nat) : countList (l.map f) aid = countList l aid := by
  induction l with
  | nil => rfl
  | cons p l ih => simp [countList_cons, hf, ih]

theorem countList_filter_le (q : Participation → Bool)
    (l : List Participation) (aid : Nat) :
    countList (l.filter q) aid ≤ countList l aid := by
  unfold countList
  exact ((List.filter_sublist l).filter _).length_le

theorem pair_count_le_one (l : List Participation)
    (h : l.Pairwise
      (fun p q => p.activity_id ≠ q.activity_id ∨ p.child_id ≠ q.child_id))
    (aid cid : Nat) :
    (l.filter (fun q => q.activity_id == aid && q.child_id == cid)).length ≤ 1 := by
  induction l with
  | nil => simp
  | cons p l ih =>
    rw [List.pairwise_cons] at h
    obtain ⟨hp, hl⟩ := h
    by_cases hm : p.activity_id = aid ∧ p.child_id = cid
    · have hemp : l.filter (fun q => q.activity_id == aid && q.child_id == cid) = [] := by
        rw [List.filter_eq_nil_iff]
        intro q hq hmem
        have hq2 : q.activity_id = aid ∧ q.child_id = cid := by simpa using hmem
        rcases hp q hq with h1 | h1
        · exact h1 (hm.1.trans hq2.1.symm)
        · exact h1 (hm.2.trans hq2.2.symm)
      simp [List.filter_cons, hm.1, hm.2, hemp]
    · have hcond : (p.activity_id == aid && p.child_id == cid) = false := by
        rw [not_and_or] at hm
        rcases hm with h1 | h1 <;> simp [h1]
      simpa [List.filter_cons, hcond] using ih hl

theorem find?_id_eq_of_nodup (l : List Activity) (aid : Nat)
    (hnd : l.Pairwise (fun a b => a.id ≠ b.id)) (a : Activity)
    (hf : l.find? (fun x => x.id == aid) = some a)
    (b : Activity) (hb : b ∈ l) (hid : b.id = aid) : b = a := by
  induction l with
  | nil => simp at hb
  | cons c l ih =>
    rw [List.pairwise_cons] at hnd
    by_cases hc : c.id = aid
    · rw [List.find?_cons_of_pos _ (by simpa using hc)] at hf
      injection hf with hf
      rcases List.mem_cons.mp hb with heq | hbl
      · rw [heq, hf]
      · exact absurd (hc.trans hid.symm) (hnd.1 b hbl)
    · rw [List.find?_cons_of_neg _ (by simpa using hc)] at hf
      rcases List.mem_cons.mp hb with heq | hbl
      · exact absurd (heq ▸ hid) hc
      · exact ih hnd.2 hf hbl

/-! ### Store well-formedness, preserved by every core operation -/

/-- Internal well-formedness of the store: every participation row
references an existing activity and an existing child; activity ids stay
below the serial counter and are pairwise distinct; (activity_id,
child_id) pairs are pairwise distinct; no stored `max_participants` is 0
(the `|| null` coercion in the create/update handlers rules it out). -/
def StoreInv (env : Env) (s : DB) : Prop :=
  (∀ p ∈ s.participations,
    (∃ a ∈ s.activities, a.id = p.activity_id) ∧ p.child_id ∈ env.children) ∧
  (∀ a ∈ s.activities, a.id < s.nextActivityId) ∧
  s.participations.Pairwise
    (fun p q => p.activity_id ≠ q.activity_id ∨ p.child_id ≠ q.child_id) ∧
  s.activities.Pairwise (fun a b => a.id ≠ b.id) ∧
  (∀ a ∈ s.activities, a.max_participants ≠ some 0)

theorem inv_emptyDB (env : Env) : StoreInv env emptyDB := by
  refine ⟨?_, ?_, ?_, ?_, ?_⟩ <;> simp [emptyDB]

theorem inv_createActivity (env : Env) (s : DB) (input : CreateActivityInput)
    (a : Activity) (s' : DB) (hinv : StoreInv env s)
    (h : createActivity env s input = .ok (a, s')) : StoreInv env s' := by
  obtain ⟨hrefs, hfresh, hpairs, hnodup, hmax⟩ := hinv
  obtain ⟨hstaff, ha, hs⟩ := createActivity_ok_elim env s input a s' h
  have haid : a.id = s.nextActivityId := by rw [ha]
  have hamax : a.max_participants = jsOrInt input.max_participants := by rw [ha]
  subst hs
  refine ⟨?_, ?_, hpairs, ?_, ?_⟩
  · intro p hp
    obtain ⟨⟨b, hb, hbid⟩, hc⟩ := hrefs p hp
    exact ⟨⟨b, List.mem_cons_of_mem _ hb, hbid⟩, hc⟩
  · intro b hb
    rcases List.mem_cons.mp hb with heq | hbl
    · rw [heq, haid]; exact Nat.lt_succ_self _
    · exact Nat.lt_succ_of_lt (hfresh b hbl)
  · rw [List.pairwise_cons]
    refine ⟨?_, hnodup⟩
    intro b hb heq
    have := hfresh b hb
    rw [haid] at heq
    omega
  · intro b hb
    rcases List.mem_cons.mp hb with heq | hbl
    · rw [heq, hamax]; exact jsOrInt_ne_some_zero _
    · exact hmax b hbl

theorem inv_updateActivity (env : Env) (s : DB) (id : Nat)
    (input : UpdateActivityInput) (a' : Activity) (s' : DB) (hinv : StoreInv env s)
    (h : updateActivity env s id input = .ok (some (a', s'))) : StoreInv env s' := by
  obtain ⟨hrefs, hfresh, hpairs, hnodup, hmax⟩ := hinv
  obtain ⟨a, _, _, hs⟩ := updateActivity_ok_elim env s id input a' s' h
  subst hs
  have hfid : ∀ b : Activity,
      (if b.id == id then applyActivityUpdate s.now input b else b).id = b.id := by
    intro b
    by_cases hb : b.id == id <;> simp [hb, applyActivityUpdate_id]
  refine ⟨?_, ?_, hpairs, ?_, ?_⟩
  · intro p hp
    obtain ⟨⟨b, hb, hbid⟩, hc⟩ := hrefs p hp
    exact ⟨⟨_, List.mem_map_of_mem _ hb, (hfid b).trans hbid⟩, hc⟩
  · intro b hb
    obtain ⟨c, hc, heq⟩ := List.mem_map.mp hb
    rw [← heq, hfid]
    exact hfresh c hc
  · rw [List.pairwise_map]
    exact hnodup.imp (fun hxy => by rw [hfid, hfid]; exact hxy)
  · intro b hb
    obtain ⟨c, hc, heq⟩ := List.mem_map.mp hb
    rw [← heq]
    by_cases hcid : c.id == id
    · simp only [hcid, if_pos]
      exact applyActivityUpdate_max_ne_zero _ _ _ (hmax c hc)
    · simp only [hcid, Bool.false_eq_true, if_false]
      exact hmax c hc

theorem inv_updateActivityStatus (env : Env) (s : DB) (id : Nat)
    (st : ActivityStatus) (a' : Activity) (s' : DB) (hinv : StoreInv env s)
    (h : updateActivityStatus s id st = some (a', s')) : StoreInv env s' := by
  obtain ⟨hrefs, hfresh, hpairs, hnodup, hmax⟩ := hinv
  obtain ⟨a, _, _, hs⟩ := updateActivityStatus_some_elim s id st a' s' h
  subst hs
  have hfid : ∀ b : Activity,
      (if b.id == id then { b with status := st, updated_at := s.now } else b).id
        = b.id := by
    intro b
    by_cases hb : b.id == id <;> simp [hb]
  have hfmax : ∀ b : Activity,
      (if b.id == id then { b with status := st, updated_at := s.now } else b).max_participants
        = b.max_participants := by
    intro b
    by_cases hb : b.id == id <;> simp [hb]
  refine ⟨?_, ?_, hpairs, ?_, ?_⟩
  · intro p hp
    obtain ⟨⟨b, hb, hbid⟩, hc⟩ := hrefs p hp
    exact ⟨⟨_, List.mem_map_of_mem _ hb, (hfid b).trans hbid⟩, hc⟩
  · intro b hb
    obtain ⟨c, hc, heq⟩ := List.mem_map.mp hb
    rw [← heq, hfid]
    exact hfresh c hc
  · rw [List.pairwise_map]
    exact hnodup.imp (fun hxy => by rw [hfid, hfid]; exact hxy)
  · intro b hb
    obtain ⟨c, hc, heq⟩ := List.mem_map.mp hb
    rw [← heq, hfmax]
    exact hmax c hc

theorem inv_enroll (env : Env) (s : DB) (input : CreateParticipationInput)
    (row : Participation) (s' : DB) (hinv : StoreInv env s)
    (h : createActivityParticipation env s input = .ok (row, s')) :
    StoreInv env s' := by
  obtain ⟨hrefs, hfresh, hpairs, hnodup, hmax⟩ := hinv
  obtain ⟨⟨a, ha, _⟩, hchild, hdup, hrow, hs⟩ := enroll_ok_elim env s input row s' h
  have hrowa : row.activity_id = input.activity_id := by rw [hrow]
  have hrowc : row.child_id = input.child_id := by rw [hrow]
  subst hs
  refine ⟨?_, hfresh, ?_, hnodup, hmax⟩
  · intro p hp
    rcases List.mem_cons.mp hp with heq | hpl
    · subst heq
      constructor
      · refine ⟨a, List.mem_of_find?_eq_some ha, ?_⟩
        rw [hrowa]
        simpa using List.find?_some ha
      · rw [hrowc]
        simpa using hchild
    · exact hrefs p hpl
  · rw [List.pairwise_cons]
    refine ⟨?_, hpairs⟩
    intro q hq
    unfold findPair at hdup
    have hnq := List.find?_eq_none.mp hdup q hq
    rw [hrowa, hrowc]
    by_cases h1 : q.activity_id = input.activity_id
    · right
      intro h2
      exact hnq (by simp [h1, h2.symm])
    · left
      intro h2
      exact h1 h2.symm

theorem inv_updateParticipationStatus (env : Env) (s : DB) (id : Nat)
    (st : ParticipationStatus) (p' : Participation) (s' : DB)
    (hinv : StoreInv env s)
    (h : updateParticipationStatus s id st = some (p', s')) :
    StoreInv env s' := by
  obtain ⟨hrefs, hfresh, hpairs, hnodup, hmax⟩ := hinv
  obtain ⟨p, _, _, hs⟩ := updateParticipationStatus_some_elim s id st p' s' h
  subst hs
  have hfa : ∀ q : Participation,
      (if q.id == id then { q with status := st, updated_at := s.now } else q).activity_id
        = q.activity_id := by
    intro q
    by_cases hq : q.id == id <;> simp [hq]
  have hfc : ∀ q : Participation,
      (if q.id == id then { q with status := st, updated_at := s.now } else q).child_id
        = q.child_id := by
    intro q
    by_cases hq : q.id == id <;> simp [hq]
  refine ⟨?_, hfresh, ?_, hnodup, hmax⟩
  · intro q hq
    obtain ⟨r, hr, heq⟩ := List.mem_map.mp hq
    obtain ⟨⟨b, hb, hbid⟩, hc⟩ := hrefs r hr
    rw [← heq]
    exact ⟨⟨b, hb, hbid.trans (hfa r).symm⟩, (hfc r).symm ▸ hc⟩
  · rw [List.pairwise_map]
    exact hpairs.imp (fun hxy => by rw [hfa, hfa, hfc, hfc]; exact hxy)

theorem inv_remove (env : Env) (s : DB) (id : Nat) (hinv : StoreInv env s) :
    StoreInv env (removeActivityParticipation s id).2 := by
  obtain ⟨hrefs, hfresh, hpairs, hnodup, hmax⟩ := hinv
  unfold removeActivityParticipation
  refine ⟨?_, hfresh, ?_, hnodup, hmax⟩
  · intro p hp
    exact hrefs p (List.mem_of_mem_filter hp)
  · exact List.Pairwise.sublist (List.filter_sublist _) hpairs

theorem inv_step (env : Env) (s : DB) (op : Op) (h : StoreInv env s) :
    StoreInv env (step env s op) := by
  cases op with
  | createActivity input =>
    simp only [step]
    split
    next a s' hc => exact inv_createActivity env s input a s' h hc
    next => exact h
  | updateActivity id input =>
    simp only [step]
    split
    next a s' hc => exact inv_updateActivity env s id input a s' h hc
    next => exact h
    next => exact h
  | updateActivityStatus id st =>
    simp only [step]
    split
    next a s' hc => exact inv_updateActivityStatus env s id st a s' h hc
    next => exact h
  | enrollParticipant input =>
    simp only [step]
    split
    next row s' hc => exact inv_enroll env s input row s' h hc
    next => exact h
  | updateParticipationStatus id st =>
    simp only [step]
    split
    next p s' hc => exact inv_updateParticipationStatus env s id st p s' h hc
    next => exact h
  | removeParticipation id => exact inv_remove env s id h

theorem inv_run (env : Env) (ops : List Op) (s : DB) (h : StoreInv env s) :
    StoreInv env (run env s ops) := by
  induction ops generalizing s with
  | nil => exact h
  | cons op ops ih => exact ih _ (inv_step env s op h)

theorem inv_reachable (env : Env) (ops : List Op) :
    StoreInv env (run env emptyDB ops) :=
  inv_run env ops emptyDB (inv_emptyDB env)

/-! ### Capacity preservation -/

theorem capacityOk_iff (s : DB) :
    capacityOk s = true ↔ ∀ a ∈ s.activities, ∀ m : Int,
      a.max_participants = some m → (countFor s a.id : Int) ≤ m := by
  unfold capacityOk
  rw [List.all_eq_true]
  constructor
  · intro h a ha m hm
    have := h a ha
    rw [hm] at this
    simpa using this
  · intro h a ha
    cases hm : a.max_participants with
    | none => simp
    | some m => simpa [hm] using h a ha m hm

theorem jsOrInt_pos (input : CreateActivityInput) (m : Int)
    (hz : zodPosMax input = true)
    (h : jsOrInt input.max_participants = some m) : 0 < m := by
  unfold zodPosMax at hz
  match hx : input.max_participants with
  | none =>
    rw [hx] at h
    simp [jsOrInt] at h
  | some none =>
    rw [hx] at h
    simp [jsOrInt] at h
  | some (some v) =>
    rw [hx] at h hz
    simp only [jsOrInt] at h
    simp at hz
    by_cases hv : v = 0
    · simp [hv] at h
    · rw [if_neg hv] at h
      injection h with h
      omega

theorem capacity_step (env : Env) (s : DB) (op : Op)
    (hA : StoreInv env s) (hC : capacityOk s = true)
    (hop : opPreservesMax op = true) (hval : opValid op = true) :
    capacityOk (step env s op) = true := by
  obtain ⟨hrefs, hfresh, _, hnodup, _⟩ := hA
  cases op with
  | createActivity input =>
    simp only [step]
    split
    next a s' hc =>
      obtain ⟨_, ha, hs⟩ := createActivity_ok_elim env s input a s' hc
      have haid : a.id = s.nextActivityId := by rw [ha]
      have hamax : a.max_participants = jsOrInt input.max_participants := by
        rw [ha]
      subst hs
      rw [capacityOk_iff]
      intro b hb m hm
      rcases List.mem_cons.mp hb with heq | hbl
      · subst heq
        have hm0 : 0 < m :=
          jsOrInt_pos input m (by simpa [opValid] using hval) (hamax ▸ hm)
        have hcount : countFor s b.id = 0 := by
          unfold countFor countList
          rw [List.length_eq_zero, List.filter_eq_nil_iff]
          intro p hp hpa
          obtain ⟨⟨c, hcmem, hcid⟩, _⟩ := hrefs p hp
          have h1 : p.activity_id = b.id := by simpa using hpa
          have h2 := hfresh c hcmem
          rw [haid] at h1
          omega
        have hgoal : (countFor s b.id : Int) ≤ m := by
          rw [hcount]
          exact_mod_cast le_of_lt hm0
        exact hgoal
      · exact (capacityOk_iff s).mp hC b hbl m hm
    next => exact hC
  | updateActivity id input =>
    simp only [step]
    split
    next a' s' hc =>
      obtain ⟨a, _, _, hs⟩ := updateActivity_ok_elim env s id input a' s' hc
      have hnone : input.max_participants = none := by
        simpa [opPreservesMax, Option.isNone_iff_eq_none] using hop
      subst hs
      rw [capacityOk_iff]
      intro b hb m hm
      obtain ⟨c, hcmem, heq⟩ := List.mem_map.mp hb
      have hid : b.id = c.id := by
        rw [← heq]
        by_cases h1 : c.id == id <;> simp [h1, applyActivityUpdate_id]
      have hmaxeq : b.max_participants = c.max_participants := by
        rw [← heq]
        by_cases h1 : c.id == id <;>
          simp [h1, applyActivityUpdate_max_of_none _ _ _ hnone]
      have hgoal := (capacityOk_iff s).mp hC c hcmem m (hmaxeq ▸ hm)
      rw [hid]
      exact hgoal
    next => exact hC
    next => exact hC
  | updateActivityStatus id st =>
    simp only [step]
    split
    next a' s' hc =>
      obtain ⟨a, _, _, hs⟩ := updateActivityStatus_some_elim s id st a' s' hc
      subst hs
      rw [capacityOk_iff]
      intro b hb m hm
      obtain ⟨c, hcmem, heq⟩ := List.mem_map.mp hb
      have hid : b.id = c.id := by
        rw [← heq]
        by_cases h1 : c.id == id <;> simp [h1]
      have hmaxeq : b.max_participants = c.max_participants := by
        rw [← heq]
        by_cases h1 : c.id == id <;> simp [h1]
      have hgoal := (capacityOk_iff s).mp hC c hcmem m (hmaxeq ▸ hm)
      rw [hid]
      exact hgoal
    next => exact hC
  | enrollParticipant input =>
    simp only [step]
    split
    next row s' hc =>
      obtain ⟨⟨a, ha, hcap⟩, _, _, hrow, hs⟩ := enroll_ok_elim env s input row s' hc
      have hrowa : row.activity_id = input.activity_id := by rw [hrow]
      subst hs
      rw [capacityOk_iff]
      intro b hb m hm
      have hcountcons : countList (row :: s.participations) b.id =
          if row.activity_id = b.id then countList s.participations b.id + 1
          else countList s.participations b.id :=
        countList_cons row s.participations b.id
      by_cases hbid : b.id = input.activity_id
      · have hba : b = a := find?_id_eq_of_nodup _ _ hnodup a ha b hb hbid
        have hcapb : capacityFull s input.activity_id b.max_participants = false := by
          rw [hba]
          exact hcap
        rw [hm] at hcapb
        unfold capacityFull at hcapb
        have hlt : (countList s.participations input.activity_id : Int) < m := by
          simpa [capacityFull, countFor] using hcapb
        show ((countList (row :: s.participations) b.id : Nat) : Int) ≤ m
        rw [hcountcons, if_pos (hrowa.trans hbid.symm), hbid]
        push_cast
        push_cast at hlt
        omega
      · show ((countList (row :: s.participations) b.id : Nat) : Int) ≤ m
        rw [hcountcons, if_neg (fun hh => hbid (hh.symm.trans hrowa))]
        exact (capacityOk_iff s).mp hC b hb m hm
    next => exact hC
  | updateParticipationStatus id st =>
    simp only [step]
    split
    next p' s' hc =>
      obtain ⟨p, _, _, hs⟩ := updateParticipationStatus_some_elim s id st p' s' hc
      subst hs
      rw [capacityOk_iff]
      intro b hb m hm
      have hcnt : countList (s.participations.map (fun q =>
          if q.id == id then { q with status := st, updated_at := s.now } else q)) b.id
          = countList s.participations b.id := by
        apply countList_map_preserve
        intro q
        by_cases h1 : q.id == id <;> simp [h1]
      show ((countList (s.participations.map (fun q =>
        if q.id == id then { q with status := st, updated_at := s.now } else q)) b.id : Nat) : Int) ≤ m
      rw [hcnt]
      exact (capacityOk_iff s).mp hC b hb m hm
    next => exact hC
  | removeParticipation id =>
    rw [capacityOk_iff]
    intro b hb m hm
    have hle : countList (s.participations.filter (fun p => !(p.id == id))) b.id
        ≤ countList s.participations b.id :=
      countList_filter_le _ _ _
    have hgoal := (capacityOk_iff s).mp hC b hb m hm
    show ((countList (s.participations.filter (fun p => !(p.id == id))) b.id : Nat) : Int) ≤ m
    have hcast : ((countList (s.participations.filter (fun p => !(p.id == id))) b.id : Nat) : Int)
        ≤ ((countList s.participations b.id : Nat) : Int) := by exact_mod_cast hle
    exact le_trans hcast hgoal

theorem capacityOk_emptyDB : capacityOk emptyDB = true := rfl

theorem capacity_run (env : Env) (ops : List Op) (s : DB)
    (hA : StoreInv env s) (hC : capacityOk s = true)
    (h : ∀ op ∈ ops, opPreservesMax op = true ∧ opValid op = true) :
    capacityOk (run env s ops) = true := by
  induction ops generalizing s with
  | nil => exact hC
  | cons op ops ih =>
    exact ih (step env s op) (inv_step env s op hA)
      (capacity_step env s op hA hC (h op (List.mem_cons_self op ops)).1
        (h op (List.mem_cons_self op ops)).2)
      (fun o ho => h o (List.mem_cons_of_mem op ho))

/-! ### Claims -/

/-- C4: the activity existence check of `enrollParticipant` precedes the
child existence check: whenever the activity id does not resolve, the call
fails with the activity-kind reference error, whatever child_id is
supplied (in particular when the child does not exist either). -/
theorem C4_activity_checked_first (env : Env) (s : DB)
    (input : CreateParticipationInput)
    (h : s.activities.find? (fun a => a.id == input.activity_id) = none) :
    createActivityParticipation env s input = .error .activityNotFound := by
  unfold createActivityParticipation
  rw [h]

theorem C4_witness :
    emptyDB.activities.find?
      (fun a => a.id == (mkEnrollInput 999 998 .REGISTERED).activity_id) = none ∧
    createActivityParticipation { staff := [], children := [] } emptyDB
      (mkEnrollInput 999 998 .REGISTERED) = .error .activityNotFound :=
  ⟨by decide, C4_activity_checked_first _ _ _ (by decide)⟩

/-- C5: an activity stored with `max_participants = 0` accepts no
enrollment at all: `enrollParticipant` never succeeds against it, and any
call that passes the child-existence and duplicate checks fails with
`CapacityExceeded` — no special case, just `count ≥ 0`. -/
theorem C5_zero_capacity_disables (env : Env) (s : DB)
    (input : CreateParticipationInput) (a : Activity)
    (hfind : s.activities.find? (fun x => x.id == input.activity_id) = some a)
    (hmax : a.max_participants = some 0) :
    (∀ row s', createActivityParticipation env s input ≠ .ok (row, s')) ∧
    (env.children.contains input.child_id = true →
      findPair s input.activity_id input.child_id = none →
      createActivityParticipation env s input = .error .capacityExceeded) := by
  have hfull : capacityFull s input.activity_id a.max_participants = true := by
    rw [hmax]
    unfold capacityFull
    simp
  constructor
  · intro row s' hok
    obtain ⟨⟨a', ha', hcap⟩, _, _, _, _⟩ := enroll_ok_elim env s input row s' hok
    rw [hfind] at ha'
    injection ha' with ha'
    rw [← ha', hfull] at hcap
    exact Bool.true_eq_false.mp hcap
  · intro hchild hdup
    have hmem : input.child_id ∈ env.children := by simpa using hchild
    unfold createActivityParticipation
    rw [hfind]
    simp [hmem, hdup, hfull]

theorem C5_witness :
    zeroCapDB.activities.find?
      (fun x => x.id == (mkEnrollInput 1 1 .REGISTERED).activity_id)
      = some zeroCapActivity ∧
    createActivityParticipation demoEnv zeroCapDB (mkEnrollInput 1 1 .REGISTERED)
      = .error .capacityExceeded :=
  ⟨by decide,
   (C5_zero_capacity_disables demoEnv zeroCapDB (mkEnrollInput 1 1 .REGISTERED)
      zeroCapActivity (by decide) (by decide)).2 (by decide) (by decide)⟩

/-- C6: when `enrollParticipant` succeeds, the persisted-and-returned row
carries exactly the caller-supplied status (no forced initial value), its
`registered_at` is the creation time, and `updated_at` equals
`registered_at`. -/
theorem C6_enroll_postcondition (env : Env) (s : DB)
    (input : CreateParticipationInput) (row : Participation) (s' : DB)
    (h : createActivityParticipation env s input = .ok (row, s')) :
    row.status = input.status ∧ row.registered_at = s.now ∧
    row.updated_at = row.registered_at ∧ row ∈ s'.participations := by
  obtain ⟨_, _, _, hrow, hs⟩ := enroll_ok_elim env s input row s' h
  refine ⟨by rw [hrow], by rw [hrow], by rw [hrow], ?_⟩
  rw [hs]
  exact List.mem_cons_self _ _

theorem C6_witness :
    enrolledRow.status = (mkEnrollInput 1 1 .ATTENDED).status ∧
    enrolledRow.registered_at = oneSlotDB.now ∧
    enrolledRow.updated_at = enrolledRow.registered_at ∧
    enrolledRow ∈ oneSlotDBAfter.participations :=
  C6_enroll_postcondition demoEnv oneSlotDB (mkEnrollInput 1 1 .ATTENDED)
    enrolledRow oneSlotDBAfter (by rfl)

theorem find?_map_id {α : Type} (l : List α) (pred : α → Bool)
    (g : α → α) (hg : ∀ b, pred (g b) = pred b) :
    (l.map g).find? pred = (l.find? pred).map g := by
  induction l with
  | nil => rfl
  | cons c l ih =>
    rw [List.map_cons]
    by_cases hc : pred c
    · rw [List.find?_cons_of_pos _ ((hg c).trans hc),
        List.find?_cons_of_pos _ hc]
      rfl
    · rw [List.find?_cons_of_neg _ (by rw [hg c]; exact hc),
        List.find?_cons_of_neg _ hc, ih]

theorem updateActivityStatus_found (s : DB) (id : Nat) (st : ActivityStatus)
    (a : Activity) (ha : getActivityById s id = some a) :
    updateActivityStatus s id st =
      some ({ a with status := st, updated_at := s.now },
        { s with activities := s.activities.map (fun b =>
          if b.id == id then { b with status := st, updated_at := s.now } else b) }) := by
  unfold updateActivityStatus
  rw [ha]

theorem getActivityById_after_map (s : DB) (id : Nat)
    (g : Activity → Activity) (hg : ∀ b, (g b).id = b.id) (a : Activity)
    (ha : getActivityById s id = some a) :
    getActivityById { s with activities := s.activities.map g } id = some (g a) := by
  unfold getActivityById at ha ⊢
  show (s.activities.map g).find? (fun b => b.id == id) = some (g a)
  rw [find?_map_id _ _ g (fun b => by rw [hg b]), ha]
  rfl

theorem updateParticipationStatus_found (s : DB) (id : Nat)
    (st : ParticipationStatus) (p : Participation)
    (hp : s.participations.find? (fun q => q.id == id) = some p) :
    updateParticipationStatus s id st =
      some ({ p with status := st, updated_at := s.now },
        { s with participations := s.participations.map (fun q =>
          if q.id == id then { q with status := st, updated_at := s.now } else q) }) := by
  unfold updateParticipationStatus
  rw [hp]

/-- C7: for both `updateActivityStatus` and `updateParticipationStatus`, a
missing id yields `null` without throwing; an existing id gets the
supplied status unconditionally with `updated_at` refreshed, and two
consecutive updates with arbitrary statuses X then Y both succeed. -/
theorem C7_unrestricted_status_updates (s : DB) (id : Nat) :
    (getActivityById s id = none →
      ∀ st, updateActivityStatus s id st = none) ∧
    (s.participations.find? (fun p => p.id == id) = none →
      ∀ st, updateParticipationStatus s id st = none) ∧
    (∀ a, getActivityById s id = some a → ∀ x y : ActivityStatus,
      ∃ a1 s1 a2 s2, updateActivityStatus s id x = some (a1, s1) ∧
        a1.status = x ∧ a1.updated_at = s.now ∧
        updateActivityStatus s1 id y = some (a2, s2) ∧ a2.status = y ∧
        a2.updated_at = s1.now) ∧
    (∀ p, s.participations.find? (fun q => q.id == id) = some p →
      ∀ x y : ParticipationStatus,
      ∃ p1 s1 p2 s2, updateParticipationStatus s id x = some (p1, s1) ∧
        p1.status = x ∧ p1.updated_at = s.now ∧
        updateParticipationStatus s1 id y = some (p2, s2) ∧ p2.status = y ∧
        p2.updated_at = s1.now) := by
  refine ⟨?_, ?_, ?_, ?_⟩
  · intro h st
    unfold updateActivityStatus
    rw [h]
  · intro h st
    unfold updateParticipationStatus
    rw [h]
  · intro a ha x y
    have h1 := updateActivityStatus_found s id x a ha
    have hmid := getActivityById_after_map s id
      (fun b => if b.id == id then { b with status := x, updated_at := s.now } else b)
      (fun b => by by_cases hb : b.id == id <;> simp [hb]) a ha
    have h2 := updateActivityStatus_found _ id y _ hmid
    exact ⟨_, _, _, _, h1, rfl, rfl, h2, rfl, rfl⟩
  · intro p hp x y
    have h1 := updateParticipationStatus_found s id x p hp
    have hmid : ({ s with participations := s.participations.map (fun q =>
        if q.id == id then { q with status := x, updated_at := s.now } else q) }
          : DB).participations.find? (fun q => q.id == id) =
        some (if p.id == id then { p with status := x, updated_at := s.now } else p) := by
      show (s.participations.map (fun q =>
        if q.id == id then { q with status := x, updated_at := s.now } else q)).find?
          (fun q => q.id == id) = _
      rw [find?_map_id _ _ _
        (fun q => by by_cases hq : q.id == id <;> simp [hq]), hp]
      rfl
    have hpid : (p.id == id) = true := by
      have := List.find?_some hp
      simpa using this
    rw [hpid, if_pos rfl] at hmid
    have h2 := updateParticipationStatus_found _ id y _ hmid
    exact ⟨_, _, _, _, h1, rfl, rfl, h2, rfl, rfl⟩

theorem C7_witness :
    updateActivityStatus twoRowsDB 99 .CANCELLED = none ∧
    updateParticipationStatus twoRowsDB 99 .CANCELLED = none ∧
    (∃ a1 s1 a2 s2, updateActivityStatus twoRowsDB 1 .ONGOING = some (a1, s1) ∧
      a1.status = .ONGOING ∧ a1.updated_at = twoRowsDB.now ∧
      updateActivityStatus s1 1 .CANCELLED = some (a2, s2) ∧
      a2.status = .CANCELLED ∧ a2.updated_at = s1.now) ∧
    (∃ p1 s1 p2 s2, updateParticipationStatus twoRowsDB 1 .ATTENDED = some (p1, s1) ∧
      p1.status = .ATTENDED ∧ p1.updated_at = twoRowsDB.now ∧
      updateParticipationStatus s1 1 .CANCELLED = some (p2, s2) ∧
      p2.status = .CANCELLED ∧ p2.updated_at = s1.now) :=
  ⟨(C7_unrestricted_status_updates twoRowsDB 99).1 (by decide) .CANCELLED,
   (C7_unrestricted_status_updates twoRowsDB 99).2.1 (by decide) .CANCELLED,
   (C7_unrestricted_status_updates twoRowsDB 1).2.2.1 openActivity (by decide)
     .ONGOING .CANCELLED,
   (C7_unrestricted_status_updates twoRowsDB 1).2.2.2 partRowA (by decide)
     .ATTENDED .CANCELLED⟩

/-- C8: `removeParticipation` hard-deletes: the success flag is true
exactly when a row with the id existed, a second removal of the same id
reports false without throwing, and after removal the by-activity read no
longer contains the id. -/
theorem C8_removal_semantics (s : DB) (id : Nat) :
    ((removeActivityParticipation s id).1 = true ↔
      ∃ p ∈ s.participations, p.id = id) ∧
    (removeActivityParticipation (removeActivityParticipation s id).2 id).1 = false ∧
    (∀ aid p, p ∈ getParticipationsByActivityId
        (removeActivityParticipation s id).2 aid → p.id ≠ id) := by
  refine ⟨?_, ?_, ?_⟩
  · unfold removeActivityParticipation
    simp [List.any_eq_true]
  · unfold removeActivityParticipation
    simp only [List.any_eq_false]
    intro p hp
    have := (List.mem_filter.mp hp).2
    simpa using this
  · intro aid p hp
    unfold getParticipationsByActivityId removeActivityParticipation at hp
    have := (List.mem_filter.mp ((List.mem_filter.mp hp).1)).2
    simpa using this

theorem C8_witness :
    (removeActivityParticipation twoRowsDB 1).1 = true ∧
    (removeActivityParticipation (removeActivityParticipation twoRowsDB 1).2 1).1
      = false ∧
    partRowB.id ≠ 1 :=
  ⟨(C8_removal_semantics twoRowsDB 1).1.mpr ⟨partRowA, by decide, rfl⟩,
   (C8_removal_semantics twoRowsDB 1).2.1,
   (C8_removal_semantics twoRowsDB 1).2.2 1 partRowB (by decide)⟩

/-- C9: `updateActivity` returns null when the id is unknown; otherwise
every field absent from the partial input keeps its prior value,
`updated_at` is refreshed, and no activity's `status` is altered. -/
theorem C9_partial_update_frame (env : Env) (s : DB) (id : Nat)
    (input : UpdateActivityInput) :
    (getActivityById s id = none → updateActivity env s id input = .ok none) ∧
    (∀ a, getActivityById s id = some a → staffRefOk env input = true →
      ∃ a' s', updateActivity env s id input = .ok (some (a', s')) ∧
        a'.updated_at = s.now ∧ a'.status = a.status ∧ a'.id = a.id ∧
        a'.created_at = a.created_at ∧
        (input.title = none → a'.title = a.title) ∧
        (input.description = none → a'.description = a.description) ∧
        (input.activity_date = none → a'.activity_date = a.activity_date) ∧
        (input.location = none → a'.location = a.location) ∧
        (input.max_participants = none →
          a'.max_participants = a.max_participants) ∧
        (input.created_by = none → a'.created_by = a.created_by) ∧
        (∀ b ∈ s'.activities, ∃ c ∈ s.activities,
          c.id = b.id ∧ b.status = c.status)) := by
  constructor
  · intro h
    unfold updateActivity
    rw [h]
  · intro a ha hstaff
    refine ⟨applyActivityUpdate s.now input a,
      { s with activities := s.activities.map (fun b =>
        if b.id == id then applyActivityUpdate s.now input b else b) },
      ?_, rfl, rfl, rfl, rfl, ?_, ?_, ?_, ?_, ?_, ?_, ?_⟩
    · unfold updateActivity
      rw [ha]
      simp [hstaff]
    · intro h
      simp [applyActivityUpdate, h]
    · intro h
      simp [applyActivityUpdate, h]
    · intro h
      simp [applyActivityUpdate, h]
    · intro h
      simp [applyActivityUpdate, h]
    · intro h
      simp [applyActivityUpdate, h]
    · intro h
      simp [applyActivityUpdate, h]
    · intro b hb
      obtain ⟨c, hc, heq⟩ := List.mem_map.mp hb
      refine ⟨c, hc, ?_, ?_⟩
      · rw [← heq]
        by_cases h1 : c.id == id <;> simp [h1, applyActivityUpdate_id]
      · rw [← heq]
        by_cases h1 : c.id == id <;> simp [h1, applyActivityUpdate_status]

theorem C9_witness :
    updateActivity demoEnv oneActDB 42 titleOnlyUpdate = .ok none ∧
    (∃ a' s', updateActivity demoEnv oneActDB 1 titleOnlyUpdate
        = .ok (some (a', s')) ∧
      a'.updated_at = oneActDB.now ∧ a'.status = openActivity.status ∧
      a'.id = openActivity.id ∧ a'.created_at = openActivity.created_at ∧
      (titleOnlyUpdate.title = none → a'.title = openActivity.title) ∧
      (titleOnlyUpdate.description = none →
        a'.description = openActivity.description) ∧
      (titleOnlyUpdate.activity_date = none →
        a'.activity_date = openActivity.activity_date) ∧
      (titleOnlyUpdate.location = none →
        a'.location = openActivity.location) ∧
      (titleOnlyUpdate.max_participants = none →
        a'.max_participants = openActivity.max_participants) ∧
      (titleOnlyUpdate.created_by = none →
        a'.created_by = openActivity.created_by) ∧
      (∀ b ∈ s'.activities, ∃ c ∈ oneActDB.activities,
        c.id = b.id ∧ b.status = c.status)) :=
  ⟨(C9_partial_update_frame demoEnv oneActDB 42 titleOnlyUpdate).1 (by decide),
   (C9_partial_update_frame demoEnv oneActDB 1 titleOnlyUpdate).2 openActivity
     (by decide) (by decide)⟩

/-- C10: both `createActivity` and `updateActivity` pass
`max_participants` through `|| null`, so a supplied value of 0 is stored
as null; consequently no reachable store holds an activity whose
`max_participants` is 0. -/
theorem C10_zero_max_coerced_to_null (env : Env) :
    (∀ s input a s', input.max_participants = some (some 0) →
      createActivity env s input = .ok (a, s') → a.max_participants = none) ∧
    (∀ s id input a' s', input.max_participants = some (some 0) →
      updateActivity env s id input = .ok (some (a', s')) →
      a'.max_participants = none) ∧
    (∀ ops, ∀ a ∈ (run env emptyDB ops).activities,
      a.max_participants ≠ some 0) := by
  refine ⟨?_, ?_, ?_⟩
  · intro s input a s' hin h
    obtain ⟨_, ha, _⟩ := createActivity_ok_elim env s input a s' h
    have hmax : a.max_participants = jsOrInt input.max_participants := by
      rw [ha]
    rw [hmax, hin]
    simp [jsOrInt]
  · intro s id input a' s' hin h
    obtain ⟨a, _, ha', _⟩ := updateActivity_ok_elim env s id input a' s' h
    rw [ha', applyActivityUpdate_max, hin]
    simp [jsOrInt]
  · intro ops a ha
    obtain ⟨_, _, _, _, hmax⟩ := inv_reachable env ops
    exact hmax a ha

theorem C10_witness :
    (mkActivityInput (some (some 0))).max_participants = some (some 0) ∧
    zeroCreated.max_participants = none :=
  ⟨rfl, (C10_zero_max_coerced_to_null demoEnv).1 emptyDB
    (mkActivityInput (some (some 0))) zeroCreated zeroOutDB rfl (by rfl)⟩

/-- C2: once a participation row exists for an (activity_id, child_id)
pair — whatever its status — any further `enrollParticipant` call for the
same pair fails with `DuplicateEnrollment`, and every reachable store
holds at most one row per pair. -/
theorem C2_duplicate_enrollment_blocked (env : Env) (ops : List Op)
    (input : CreateParticipationInput) (p : Participation)
    (hp : p ∈ (run env emptyDB ops).participations)
    (ha : p.activity_id = input.activity_id)
    (hc : p.child_id = input.child_id) :
    createActivityParticipation env (run env emptyDB ops) input =
      .error .duplicateEnrollment ∧
    ∀ aid cid : Nat,
      ((run env emptyDB ops).participations.filter
        (fun q => q.activity_id == aid && q.child_id == cid)).length ≤ 1 := by
  obtain ⟨hrefs, _, hpairs, _, _⟩ := inv_reachable env ops
  constructor
  · obtain ⟨⟨b, hb, hbid⟩, hchild⟩ := hrefs p hp
    have hfa : ∃ a, (run env emptyDB ops).activities.find?
        (fun x => x.id == input.activity_id) = some a := by
      cases hfa : (run env emptyDB ops).activities.find?
          (fun x => x.id == input.activity_id) with
      | some a => exact ⟨a, rfl⟩
      | none =>
        exfalso
        exact List.find?_eq_none.mp hfa b hb (by simp [hbid.trans ha])
    obtain ⟨a, hfa⟩ := hfa
    have hdup : (findPair (run env emptyDB ops) input.activity_id
        input.child_id).isSome = true := by
      unfold findPair
      cases hfp : (run env emptyDB ops).participations.find?
          (fun q => q.activity_id == input.activity_id &&
            q.child_id == input.child_id) with
      | some q => rfl
      | none =>
        exfalso
        exact List.find?_eq_none.mp hfp p hp (by simp [ha, hc])
    have hmem : input.child_id ∈ env.children := hc ▸ hchild
    unfold createActivityParticipation
    rw [hfa]
    simp [hmem, hdup]
  · intro aid cid
    exact pair_count_le_one _ hpairs aid cid

theorem C2_witness :
    createActivityParticipation demoEnv (run demoEnv emptyDB dupOps)
      (mkEnrollInput 1 1 .CANCELLED) = .error .duplicateEnrollment :=
  (C2_duplicate_enrollment_blocked demoEnv dupOps (mkEnrollInput 1 1 .CANCELLED)
    partRowA (by decide) rfl rfl).1

/-- C1 as stated is false: `updateActivity` may lower `max_participants`
below the current enrollment count.  From the empty store: create an
activity with no limit, enroll two children, then update the activity's
`max_participants` to 1 — the activity now has 2 participation rows
against a limit of 1. -/
theorem C1_counterexample :
    capacityOk (run demoEnv emptyDB capOps) = false ∧
    (∃ a ∈ (run demoEnv emptyDB capOps).activities,
      a.max_participants = some 1 ∧
      countFor (run demoEnv emptyDB capOps) a.id = 2) := by
  constructor
  · decide
  · decide

/-- C1 (amended): from the empty store, the participation count of an
activity never exceeds its non-null `max_participants`, for every
sequence of schema-valid core operations in which no `updateActivity`
call supplies the `max_participants` field. -/
theorem C1_capacity_invariant (env : Env) (ops : List Op)
    (h : ∀ op ∈ ops, opPreservesMax op = true ∧ opValid op = true) :
    capacityOk (run env emptyDB ops) = true :=
  capacity_run env ops emptyDB (inv_emptyDB env) capacityOk_emptyDB h

theorem C1_witness :
    (∀ op ∈ goodOps, opPreservesMax op = true ∧ opValid op = true) ∧
    capacityOk (run demoEnv emptyDB goodOps) = true :=
  ⟨by decide, C1_capacity_invariant demoEnv goodOps (by decide)⟩

/-- C3 is false on the code: the handler's duplicate check, capacity
check and insert are separate store round-trips with no transaction, and
the schema has no uniqueness constraint on (activity_id, child_id), so
two interleaved `enrollParticipant` calls can both pass the capacity
count for the last slot and then both insert: against an activity with
`max_participants = 1` both calls succeed and the store ends with 2 rows. -/
theorem C3_enroll_not_atomic :
    isOkThread
      (runSchedule demoEnv oneSlotDB raceThreadA raceThreadB raceSchedule).2.1
      = true ∧
    isOkThread
      (runSchedule demoEnv oneSlotDB raceThreadA raceThreadB raceSchedule).2.2
      = true ∧
    countFor (runSchedule demoEnv oneSlotDB raceThreadA raceThreadB raceSchedule).1 1
      = 2 ∧
    oneSlotActivity.max_participants = some 1 := by
  refine ⟨by decide, by decide, by decide, by decide⟩
